import Mathlib

/-!
Verification of the CRM aggregation pipeline in `fetch_latest_deals.py`
(HubSpot deal export).  The Python source is shallowly embedded: the five
remote endpoints become an abstract environment `Env`, every network call is
recorded in a request log, and fatal `SystemExit` aborts become the error
case of an `Except`-valued state monad `M`.  Unbounded `while True` cursor
loops take an explicit fuel parameter; running out of fuel is modelled as a
distinct error (`Err.outOfFuel`), never as a partial result.

Python-value conventions used throughout:
* `Option String` models a value that may be `None` (or an absent dict key);
  `orEmpty` models `x or ""`, `strOpt` models `str(x)` of a possibly-`None`
  value, `truthyOpt` models Python truthiness of an `Optional[str]`.
* A JSON `properties` object is an association list `Props`; an absent key
  and a `null` value are collapsed to `none`, which is sound here because
  every read in the source goes through `or ""` or an `if not x` guard.
* String maps that the source mutates in place (`owners`, `result`,
  `deal_to_first_contact`, ...) are modelled as functions
  `String → Option _` updated functionally.
-/

deriving instance DecidableEq for Except

/-- Models Python `str(x)` where `x : Optional[str]`: `str(None) = "None"`. -/
def strOpt : Option String → String
  | none => "None"
  | some s => s

/-- Models Python `x or ""` for `x : Optional[str]`. -/
def orEmpty (o : Option String) : String := o.getD ""

/-- Python truthiness of an `Optional[str]`: `None` and `""` are falsy. -/
def truthyOpt : Option String → Bool
  | none => false
  | some s => decide (s ≠ "")

/-- Models Python `str.strip()` (for the ASCII whitespace that can occur
here), implemented structurally so that it evaluates in the kernel. -/
def pyStrip (s : String) : String :=
  String.mk
    (((s.data.dropWhile Char.isWhitespace).reverse.dropWhile
        Char.isWhitespace).reverse)

/-- A pagination token is put into a request body only when truthy
(`if after: body["after"] = after`). -/
def reqAfter (a : Option String) : Option String :=
  if truthyOpt a then a else none

/-- A JSON `properties` object: association list from key to value. -/
def Props : Type := List (String × String)

instance : DecidableEq Props := by unfold Props; infer_instance

/-- Models `props.get(key)` (first binding wins; dict keys are unique). -/
def pget (p : Props) (k : String) : Option String :=
  (p.find? (fun kv => kv.fst == k)).map (fun kv => kv.snd)

/-- Functional update of a string-keyed map, modelling `m[k] = v`. -/
def upd {α : Type} (m : String → Option α) (k : String) (v : α) :
    String → Option α :=
  fun x => if x = k then some v else m x

/-- Functional update storing an optional value,
modelling `m[k] = v` with `v : Optional[str]`. -/
def updO (m : String → Option String) (k : String) (v : Option String) :
    String → Option String :=
  fun x => if x = k then v else m x

/-! ## Date parsing: `safe_format_date`

`datetime.strptime` is embedded for the exact two format strings the source
uses, following CPython's `_strptime` module.  The format is compiled into
a regular expression with `re.IGNORECASE` (so the literals `T` and `Z` also
match `t` and `z`).  The directive patterns, verbatim from `TimeRE`, are
  `%Y` → `\d\d\d\d`
  `%m` → `1[0-2]|0[1-9]|[1-9]`
  `%d` → `3[0-1]|[1-2]\d|0[1-9]|[1-9]| [1-9]`
  `%H` → `2[0-3]|[0-1]\d|\d`
  `%M` → `[0-5]\d|\d`
  `%S` → `6[0-1]|[0-5]\d|\d`
  `%f` → `[0-9]{1,6}`
where `\d` matches every Unicode decimal digit (category Nd) while the
explicit classes such as `[0-9]` are ASCII-only; `int()` converts the
matched digits by their decimal values.  The whole string must match.  The
subsequent `datetime(...)` constructor validates the calendar date,
`1 <= year`, and `second <= 59` (the leap seconds 60 and 61 that `%S`
accepts at the regex level are rejected here); on failure the source
catches `ValueError` and tries the next format, finally returning the input
unchanged. -/

/-- Zero points of the Unicode decimal-digit (category Nd) ranges: each is a
run of ten consecutive code points carrying the digit values 0–9 (Unicode
14.0, as bundled with CPython 3.11).  `\d` in CPython's `str` regexes
matches exactly the characters of these ranges, and `int()` accepts them
with these values. -/
def ndRangeZeros : List Nat :=
  [0x30, 0x660, 0x6F0, 0x7C0, 0x966, 0x9E6, 0xA66, 0xAE6, 0xB66, 0xBE6,
   0xC66, 0xCE6, 0xD66, 0xDE6, 0xE50, 0xED0, 0xF20, 0x1040, 0x1090, 0x17E0,
   0x1810, 0x1946, 0x19D0, 0x1A80, 0x1A90, 0x1B50, 0x1BB0, 0x1C40, 0x1C50,
   0xA620, 0xA8D0, 0xA900, 0xA9D0, 0xA9F0, 0xAA50, 0xABF0, 0xFF10, 0x104A0,
   0x10D30, 0x11066, 0x110F0, 0x11136, 0x111D0, 0x112F0, 0x11450, 0x114D0,
   0x11650, 0x116C0, 0x11730, 0x118E0, 0x11950, 0x11C50, 0x11D50, 0x11DA0,
   0x16A60, 0x16AC0, 0x16B50, 0x1D7CE, 0x1D7D8, 0x1D7E2, 0x1D7EC, 0x1D7F6,
   0x1E140, 0x1E2F0, 0x1E950, 0x1FBF0]

/-- The decimal value of a `\d`-matching (Unicode decimal digit) character;
`none` for every other character. -/
def udigit? (c : Char) : Option Nat :=
  ndRangeZeros.findSome? (fun z =>
    if z ≤ c.toNat && c.toNat ≤ z + 9 then some (c.toNat - z) else none)

/-- The decimal value of an ASCII digit (the explicit `[0-9]`-style classes
of the directive regexes are ASCII-only); `none` otherwise. -/
def adigit? (c : Char) : Option Nat :=
  if 48 ≤ c.toNat && c.toNat ≤ 57 then some (c.toNat - 48) else none

/-- `%Y`: `\d\d\d\d` — exactly four Unicode digits. -/
def parseYear : List Char → Option (Nat × List Char)
  | c1 :: c2 :: c3 :: c4 :: rest =>
      match udigit? c1, udigit? c2, udigit? c3, udigit? c4 with
      | some d1, some d2, some d3, some d4 =>
          some (d1 * 1000 + d2 * 100 + d3 * 10 + d4, rest)
      | _, _, _, _ => none
  | _ => none

/-- The two-character alternatives of `%m` (`1[0-2]|0[1-9]`): two ASCII
digits whose value is 1–12 (the alternatives exclude `00`). -/
def matchMonth2 (c1 c2 : Char) : Option Nat :=
  match adigit? c1, adigit? c2 with
  | some a, some b =>
      if 1 ≤ a * 10 + b && a * 10 + b ≤ 12 then some (a * 10 + b) else none
  | _, _ => none

/-- A single ASCII digit 1–9 (the `[1-9]` alternative of `%m` and `%d`). -/
def matchAscii19 (c : Char) : Option Nat :=
  match adigit? c with
  | some a => if 1 ≤ a then some a else none
  | none => none

/-- The two-character alternatives of `%d`
(`3[0-1]|[1-2]\d|0[1-9]| [1-9]`): note the first characters are ASCII (or a
space) while the `\d` of `[1-2]\d` matches any Unicode digit.  The
alternatives are disjoint in their first character, so the ordered regex
alternation reduces to this case split. -/
def matchDay2 (c1 c2 : Char) : Option Nat :=
  if c1 = '3' then
    match adigit? c2 with
    | some b => if b ≤ 1 then some (30 + b) else none
    | none => none
  else if c1 = '1' ∨ c1 = '2' then
    match udigit? c2 with
    | some b => some ((c1.toNat - 48) * 10 + b)
    | none => none
  else if c1 = '0' then
    match adigit? c2 with
    | some b => if 1 ≤ b then some b else none
    | none => none
  else if c1 = ' ' then
    match adigit? c2 with
    | some b => if 1 ≤ b then some b else none
    | none => none
  else none

/-- The two-character alternatives of `%H` (`2[0-3]|[0-1]\d`). -/
def matchHour2 (c1 c2 : Char) : Option Nat :=
  if c1 = '2' then
    match adigit? c2 with
    | some b => if b ≤ 3 then some (20 + b) else none
    | none => none
  else if c1 = '0' ∨ c1 = '1' then
    match udigit? c2 with
    | some b => some ((c1.toNat - 48) * 10 + b)
    | none => none
  else none

/-- The two-character alternative of `%M` (`[0-5]\d`), also reused by `%S`. -/
def matchSixty2 (c1 c2 : Char) : Option Nat :=
  match adigit? c1 with
  | some a =>
      if a ≤ 5 then
        match udigit? c2 with
        | some b => some (a * 10 + b)
        | none => none
      else none
  | none => none

/-- The two-character alternatives of `%S` (`6[0-1]|[0-5]\d`): the regex
admits the leap seconds 60 and 61. -/
def matchSec2 (c1 c2 : Char) : Option Nat :=
  if c1 = '6' then
    match adigit? c2 with
    | some b => if b ≤ 1 then some (60 + b) else none
    | none => none
  else matchSixty2 c1 c2

/-- A one-or-two character numeric directive: the two-character alternatives
(`two`) are tried before the final one-character alternative (`one`),
exactly as in the ordered regex alternation.  Backtracking from a committed
two-character match into the one-character branch can never help, because
every directive here is followed by a literal and the second character of a
successful two-character match is a digit, which no literal of these
formats is. -/
def parse2or1 (two : Char → Char → Option Nat) (one : Char → Option Nat) :
    List Char → Option (Nat × List Char)
  | c1 :: c2 :: rest =>
      match two c1 c2 with
      | some v => some (v, rest)
      | none =>
        match one c1 with
        | some v => some (v, c2 :: rest)
        | none => none
  | [c1] =>
      match one c1 with
      | some v => some (v, [])
      | none => none
  | [] => none

/-- ASCII case folding of a code point.  Together with `parseLit` this
models the effect of `re.IGNORECASE` on the literals of these formats
(`T`, `Z`, `-`, `:`, `.` — only `T` and `Z` have case variants). -/
def lowerNat (n : Nat) : Nat := if 65 ≤ n ∧ n ≤ 90 then n + 32 else n

/-- A literal character of the format string; the format regex is compiled
with `re.IGNORECASE`, so the comparison is case-insensitive. -/
def parseLit (ch : Char) : List Char → Option (List Char)
  | c :: rest =>
      if lowerNat c.toNat = lowerNat ch.toNat then some rest else none
  | [] => none

/-- `%f`: `[0-9]{1,6}` — a greedy run of one to six ASCII digits.  Since the
directive is followed by the literal `Z`/`z`, the match succeeds exactly
when the maximal ASCII-digit run has length one to six. -/
def parseFrac (s : List Char) : Option (List Char) :=
  let digits := s.takeWhile (fun c => (adigit? c).isSome)
  if 1 ≤ digits.length && digits.length ≤ 6 then
    some (s.dropWhile (fun c => (adigit? c).isSome))
  else none

/-- Regex-level match of `"%Y-%m-%dT%H:%M:%S.%fZ"` (when `withFrac`) or
`"%Y-%m-%dT%H:%M:%SZ"`, returning `(year, month, day, hour, minute, second)`.
The entire input must be consumed. -/
def strptimeFields (withFrac : Bool) (s : List Char) :
    Option (Nat × Nat × Nat × Nat × Nat × Nat) := do
  let (y, s) ← parseYear s
  let s ← parseLit '-' s
  let (m, s) ← parse2or1 matchMonth2 matchAscii19 s
  let s ← parseLit '-' s
  let (d, s) ← parse2or1 matchDay2 matchAscii19 s
  let s ← parseLit 'T' s
  let (h, s) ← parse2or1 matchHour2 udigit? s
  let s ← parseLit ':' s
  let (mi, s) ← parse2or1 matchSixty2 udigit? s
  let s ← parseLit ':' s
  let (sec, s) ← parse2or1 matchSec2 udigit? s
  let s ←
    if withFrac then do
      let s ← parseLit '.' s
      parseFrac s
    else pure s
  let s ← parseLit 'Z' s
  match s with
  | [] => some (y, m, d, h, mi, sec)
  | _ => none

def isLeap (y : Nat) : Bool :=
  y % 4 == 0 && (y % 100 != 0 || y % 400 == 0)

def daysInMonth (y m : Nat) : Nat :=
  if m = 2 then (if isLeap y then 29 else 28)
  else if m = 4 ∨ m = 6 ∨ m = 9 ∨ m = 11 then 30
  else 31

/-- The range checks of the `datetime(...)` constructor (which raises
`ValueError`, caught by the source): in particular a regex-accepted leap
second (60 or 61) or an out-of-range calendar day is rejected here. -/
def datetimeValid (y m d h mi sec : Nat) : Bool :=
  1 ≤ y && y ≤ 9999 && 1 ≤ m && m ≤ 12 && 1 ≤ d && d ≤ daysInMonth y m
    && h ≤ 23 && mi ≤ 59 && sec ≤ 59

/-- One `datetime.strptime(iso_str, fmt)` attempt, reduced to the calendar
date it would carry: `none` models a raised `ValueError`. -/
def strptimeDate (withFrac : Bool) (s : String) : Option (Nat × Nat × Nat) :=
  match strptimeFields withFrac s.data with
  | some (y, m, d, h, mi, sec) =>
      if datetimeValid y m d h mi sec then some (y, m, d) else none
  | none => none

def pad2 (n : Nat) : String :=
  if n < 10 then "0" ++ toString n else toString n

def pad4 (n : Nat) : String :=
  if n < 10 then "000" ++ toString n
  else if n < 100 then "00" ++ toString n
  else if n < 1000 then "0" ++ toString n
  else toString n

/-- `dt.date().isoformat()`. -/
def dateIso (y m d : Nat) : String :=
  pad4 y ++ "-" ++ pad2 m ++ "-" ++ pad2 d

/-- `safe_format_date` (source lines 85–97): falsy input gives `""`; the two
formats are tried in order; an input matching neither passes through
unchanged. -/
def safe_format_date (iso_str : Option String) : String :=
  if truthyOpt iso_str = false then ""
  else
    let s := orEmpty iso_str
    match strptimeDate true s with
    | some (y, m, d) => dateIso y m d
    | none =>
      match strptimeDate false s with
      | some (y, m, d) => dateIso y m d
      | none => s

example : safe_format_date (some "2023-07-03T17:41:04.193Z") = "2023-07-03" := by
  decide

example : safe_format_date (some "2023-07-03T17:41:04Z") = "2023-07-03" := by
  decide

example : safe_format_date (some "not-a-date") = "not-a-date" := by decide

example : safe_format_date none = "" := by decide

/-- A leap second parses at the regex level but the `datetime` constructor
rejects it, so the raw string passes through. -/
example : safe_format_date (some "2023-07-03T17:41:60Z") = "2023-07-03T17:41:60Z" := by
  decide

/-- February 30 matches the regex but not the calendar. -/
example : safe_format_date (some "2023-02-30T00:00:00Z") = "2023-02-30T00:00:00Z" := by
  decide

/-- Like CPython, single-digit month/day/time fields are accepted and the
rendered date is zero-padded. -/
example : safe_format_date (some "2023-7-3T5:4:1Z") = "2023-07-03" := by decide

/-- The format regex is compiled with `re.IGNORECASE`, so lowercase `t` and
`z` are accepted. -/
example : safe_format_date (some "2023-07-03t17:41:04z") = "2023-07-03" := by
  decide

/-- CPython's `\d` matches any Unicode decimal digit: an Arabic-Indic year
parses, and the rendered date uses ASCII digits. -/
example : safe_format_date (some "٢٠٢٣-07-03T00:00:00Z") = "2023-07-03" := by
  decide

/-- The explicit classes are ASCII-only, though: `%m` (`1[0-2]|0[1-9]|[1-9]`)
rejects an Arabic-Indic month, so this string passes through. -/
example : safe_format_date (some "2023-٠7-03T00:00:00Z")
    = "2023-٠7-03T00:00:00Z" := by decide

/-- The `\d` slot of the day alternative `[1-2]\d` is Unicode; and the
`%d` pattern also admits a space-padded ` [1-9]` day. -/
example : safe_format_date (some "2023-07-2٣T00:00:00Z") = "2023-07-23" := by
  decide

example : safe_format_date (some "2023-07- 3T00:00:00Z") = "2023-07-03" := by
  decide

/-- A two-digit year does not match `%Y` (exactly four digits). -/
example : safe_format_date (some "23-07-03T17:41:04Z") = "23-07-03T17:41:04Z" := by
  decide

/-! ## Data model -/

/-- A deal as returned by the search endpoint: `d.get("id")` and
`d.get("properties", {})`. -/
structure Deal where
  id : Option String
  properties : Props
deriving DecidableEq

/-- A search-endpoint page, after extracting
`data.get("results", [])` and `(data.get("paging", {}) or {}).get("next", {}).get("after")`. -/
structure SearchPage where
  results : List Deal
  after : Option String
deriving DecidableEq

/-- One entry of an association-endpoint response: the v3 `id` key or the
legacy `toObjectId` key (`id` wins when both are present). -/
structure AssocResult where
  id : Option String
  toObjectId : Option String
deriving DecidableEq

/-- One entry of a batch-read response. -/
structure BatchItem where
  id : Option String
  properties : Props
deriving DecidableEq

/-- One entry of an owner-listing page. -/
structure OwnerItem where
  id : Option String
  firstName : Option String
  lastName : Option String
  email : Option String
  ownerId : Option String
deriving DecidableEq

/-- An owner-listing page, after cursor extraction. -/
structure OwnersPage where
  results : List OwnerItem
  after : Option String
deriving DecidableEq

/-- The single-owner lookup response. -/
structure OwnerRec where
  firstName : Option String
  lastName : Option String
  email : Option String
deriving DecidableEq

/-- A network request issued by the pipeline, as recorded in the log. -/
inductive Req where
  | search (limit : Int) (after : Option String)
  | assoc (dealId : String) (toObject : String)
  | batch (objectType : String) (inputs : List String) (properties : List String)
  | ownersPage (after : Option String)
  | ownerGet (ownerId : String)
deriving DecidableEq

/-- A fatal condition: a `SystemExit` raised by `_handle_response` (non-2xx
status or non-JSON body), or exhaustion of loop fuel (modelling a run that
never terminates, hence never produces results). -/
inductive Err where
  | api (msg : String)
  | outOfFuel
deriving DecidableEq

/-- The remote HubSpot API: each endpoint either fails (non-success status or
malformed body, which `_handle_response` turns into `SystemExit`) or returns
its decoded JSON. -/
structure Env where
  search : Int → Option String → Except String SearchPage
  assoc : String → String → Except String (List AssocResult)
  batch : String → List String → List String → Except String (List BatchItem)
  ownersPage : Option String → Except String OwnersPage
  ownerGet : String → Except String OwnerRec

def isOkE {ε α : Type} : Except ε α → Bool
  | Except.ok _ => true
  | Except.error _ => false

abbrev Log := List Req

/-- The pipeline monad: threads the request log, aborts on `Err` while
keeping the log of requests already issued. -/
def M (α : Type) : Type := Log → Except Err α × Log

instance : Monad M where
  pure := fun a l => (Except.ok a, l)
  bind := fun x f l =>
    match x l with
    | (Except.ok a, l') => f a l'
    | (Except.error e, l') => (Except.error e, l')

theorem pure_run {α : Type} (a : α) (l : Log) :
    (pure a : M α) l = (Except.ok a, l) := rfl

theorem bind_run {α β : Type} (x : M α) (f : α → M β) (l : Log) :
    (x >>= f) l =
      match x l with
      | (Except.ok a, l') => f a l'
      | (Except.error e, l') => (Except.error e, l') := rfl

theorem bind_run_ok {α β : Type} {x : M α} {f : α → M β} {l l' : Log} {a : α}
    (h : x l = (Except.ok a, l')) : (x >>= f) l = f a l' := by
  rw [bind_run, h]

theorem bind_run_error {α β : Type} {x : M α} {f : α → M β} {l l' : Log}
    {e : Err} (h : x l = (Except.error e, l')) :
    (x >>= f) l = (Except.error e, l') := by
  rw [bind_run, h]

def mapErr {α : Type} : Except String α → Except Err α
  | Except.ok a => Except.ok a
  | Except.error e => Except.error (Err.api e)

/-- `client.post("/crm/v3/objects/deals/search", json=body)`. -/
def callSearch (env : Env) (limit : Int) (after : Option String) :
    M SearchPage :=
  fun l => (mapErr (env.search limit after), l ++ [Req.search limit after])

/-- `client.get(f"/crm/v3/objects/deals/{deal_id}/associations/{to_object}")`. -/
def callAssoc (env : Env) (dealId toObject : String) : M (List AssocResult) :=
  fun l => (mapErr (env.assoc dealId toObject), l ++ [Req.assoc dealId toObject])

/-- `client.post(f"/crm/v3/objects/{object_type}/batch/read", json=body)`. -/
def callBatch (env : Env) (objectType : String) (inputs properties : List String) :
    M (List BatchItem) :=
  fun l =>
    (mapErr (env.batch objectType inputs properties),
     l ++ [Req.batch objectType inputs properties])

/-- `client.get("/crm/v3/owners/", params=params)`. -/
def callOwnersPage (env : Env) (after : Option String) : M OwnersPage :=
  fun l => (mapErr (env.ownersPage after), l ++ [Req.ownersPage after])

/-- `client.get(f"/crm/v3/owners/{owner_id}", params=...)`, the fallback
single-owner lookup. -/
def callOwnerGet (env : Env) (ownerId : String) : M OwnerRec :=
  fun l => (mapErr (env.ownerGet ownerId), l ++ [Req.ownerGet ownerId])

/-! ## The source functions -/

/-- `fetch_ytd_deals_excluding_closed` (source lines 100–131): one search
request with the caller's limit and no pagination token. -/
def fetch_ytd_deals_excluding_closed (env : Env) (limit : Int) :
    M (List Deal) := do
  let data ← callSearch env limit none
  pure data.results

/-- The `while True` body of `fetch_ytd_deals_excluding_closed_all`:
request a page of 100 (attaching the cursor only when truthy), extend the
accumulator, stop when the response's cursor is falsy. -/
def fetch_all_loop (env : Env) : Nat → Option String → List Deal → M (List Deal)
  | 0, _, _ => fun l => (Except.error Err.outOfFuel, l)
  | Nat.succ fuel, after, all_results => do
      let data ← callSearch env 100 (reqAfter after)
      let all_results := all_results ++ data.results
      if truthyOpt data.after then
        fetch_all_loop env fuel data.after all_results
      else
        pure all_results

/-- `fetch_ytd_deals_excluding_closed_all` (source lines 134–177). -/
def fetch_ytd_deals_excluding_closed_all (env : Env) (fuel : Nat) :
    M (List Deal) :=
  fetch_all_loop env fuel none []

/-- The per-item body of the `fetch_owner_lookup` loop: derive the display
name, register it under the primary id when truthy, and also under the
legacy `ownerId` key when that is truthy. -/
def ownerItemInsert (owners : String → Option String) (item : OwnerItem) :
    String → Option String :=
  let owner_id := orEmpty item.id
  let first := orEmpty item.firstName
  let last := orEmpty item.lastName
  let email := orEmpty item.email
  let name :=
    if pyStrip (first ++ " " ++ last) ≠ "" then pyStrip (first ++ " " ++ last)
    else if email ≠ "" then email
    else owner_id
  let owners1 := if owner_id ≠ "" then upd owners owner_id name else owners
  match item.ownerId with
  | some legacy => if legacy ≠ "" then upd owners1 legacy name else owners1
  | none => owners1

/-- The `while True` pagination loop of `fetch_owner_lookup`. -/
def owners_loop (env : Env) :
    Nat → Option String → (String → Option String) → M (String → Option String)
  | 0, _, _ => fun l => (Except.error Err.outOfFuel, l)
  | Nat.succ fuel, after, owners => do
      let data ← callOwnersPage env (reqAfter after)
      let owners := data.results.foldl ownerItemInsert owners
      if truthyOpt data.after then
        owners_loop env fuel data.after owners
      else
        pure owners

/-- `fetch_owner_lookup` (source lines 180–203). -/
def fetch_owner_lookup (env : Env) (fuel : Nat) : M (String → Option String) :=
  owners_loop env fuel none (fun _ => none)

/-- `resolve_owner_name` (source lines 206–221): falsy id gives `""`; a cache
hit returns immediately; otherwise one fallback lookup is attempted, whose
success is memoized and whose `SystemExit` failure is caught, returning the
raw identifier without caching. -/
def resolve_owner_name (env : Env) (owner_id : Option String)
    (owners : String → Option String) : M (String × (String → Option String)) :=
  if truthyOpt owner_id = false then pure ("", owners)
  else
    let oid := orEmpty owner_id
    match owners oid with
    | some n => pure (n, owners)
    | none => fun l =>
        match env.ownerGet oid with
        | Except.ok data =>
            let first := orEmpty data.firstName
            let last := orEmpty data.lastName
            let email := orEmpty data.email
            let name :=
              if pyStrip (first ++ " " ++ last) ≠ "" then pyStrip (first ++ " " ++ last)
              else if email ≠ "" then email
              else oid
            (Except.ok (name, upd owners oid name), l ++ [Req.ownerGet oid])
        | Except.error _ =>
            (Except.ok (oid, owners), l ++ [Req.ownerGet oid])

/-- The result-extraction fold of `fetch_association_ids`: `id` wins over the
legacy `toObjectId`; entries with neither key are skipped. -/
def extractAssocIds (results : List AssocResult) : List String :=
  results.foldl
    (fun ids r =>
      match r.id with
      | some v => ids ++ [v]
      | none =>
        match r.toObjectId with
        | some v => ids ++ [v]
        | none => ids)
    []

/-- `fetch_association_ids` (source lines 224–235). -/
def fetch_association_ids (env : Env) (deal_id to_object : String) :
    M (List String) := do
  let data ← callAssoc env deal_id to_object
  pure (extractAssocIds data)

/-- `list(dict.fromkeys(ids))`: deduplication preserving first occurrences. -/
def dedupKeepFirst (ids : List String) : List String :=
  ids.foldl (fun acc x => if x ∈ acc then acc else acc ++ [x]) []

/-- Fuel-indexed worker for `chunksOf` (the fuel is the list length, which
suffices for any positive chunk size). -/
def chunksOfGo (k : Nat) : Nat → List String → List (List String)
  | _, [] => []
  | 0, _ :: _ => []
  | Nat.succ n, x :: xs => ((x :: xs).take k) :: chunksOfGo k n ((x :: xs).drop k)

/-- `range(0, len(unique_ids), chunk_size)` slicing into chunks of at most
`k` elements (the source uses `k = 100`). -/
def chunksOf (k : Nat) (l : List String) : List (List String) :=
  chunksOfGo k l.length l

/-- The per-chunk loop of `batch_read_objects`: one bulk-read request per
chunk, merging each response into the result map keyed by `str(item.get("id"))`. -/
def batch_chunks_loop (env : Env) (object_type : String) (properties : List String) :
    List (List String) → (String → Option Props) → M (String → Option Props)
  | [], result => pure result
  | chunk :: rest, result => do
      let data ← callBatch env object_type chunk properties
      let result := data.foldl
        (fun m item => upd m (strOpt item.id) item.properties) result
      batch_chunks_loop env object_type properties rest result

/-- `batch_read_objects` (source lines 238–254): an empty input list
short-circuits to an empty map; otherwise the input is deduplicated
(preserving order) and chunked into bulk reads of at most 100.  Note that
only the *whole list* being empty is checked: empty-string identifiers are
not filtered out individually. -/
def batch_read_objects (env : Env) (object_type : String) (ids : List String)
    (properties : List String) : M (String → Option Props) :=
  if ids.isEmpty then pure (fun _ => none)
  else
    let unique_ids := dedupKeepFirst ids
    batch_chunks_loop env object_type properties (chunksOf 100 unique_ids)
      (fun _ => none)

/-- The CSV header (source lines 260–269). -/
def csvHeader : List String :=
  ["deal", "value", "dealstage", "dealowner", "expiration_date",
   "created_at_date", "customer_name", "company_name"]

/-- The owner-identifier argument passed to `resolve_owner_name` by
`build_csv_rows`: `str(owner_id) if owner_id else None` after
`owner_id = props.get("hubspot_owner_id") or ""`. -/
def ownerIdArg (d : Deal) : Option String :=
  let owner_id := orEmpty (pget d.properties "hubspot_owner_id")
  if owner_id ≠ "" then some owner_id else none

/-- The pure field derivations of one output row (`build_csv_rows` loop body,
source lines 296–328), given the already-resolved owner name. -/
def projectFields (contacts companies : String → Option Props)
    (deal_to_first_contact deal_to_first_company : String → Option String)
    (d : Deal) (owner_name : String) : List String :=
  let props := d.properties
  let deal_id := strOpt d.id
  let deal_name := orEmpty (pget props "dealname")
  let amount := orEmpty (pget props "amount")
  let stage := orEmpty (pget props "dealstage")
  let closedate := safe_format_date (pget props "closedate")
  let createdate := safe_format_date (pget props "createdate")
  let contact_id := deal_to_first_contact deal_id
  let contact_props := (contacts (orEmpty contact_id)).getD []
  let first := orEmpty (pget contact_props "firstname")
  let last := orEmpty (pget contact_props "lastname")
  let customer_name :=
    if pyStrip (first ++ " " ++ last) ≠ "" then pyStrip (first ++ " " ++ last)
    else orEmpty (pget contact_props "email")
  let company_id := deal_to_first_company deal_id
  let company_props := (companies (orEmpty company_id)).getD []
  let company_name := orEmpty (pget company_props "name")
  [deal_name, amount, stage, owner_name, closedate, createdate,
   customer_name, company_name]

/-- The association-collection loop of `build_csv_rows` (source lines
274–286), threading the two id accumulators and the two first-id maps. -/
structure AssocAcc where
  all_contact_ids : List String
  all_company_ids : List String
  deal_to_first_contact : String → Option String
  deal_to_first_company : String → Option String

def assoc_loop (env : Env) : List Deal → AssocAcc → M AssocAcc
  | [], acc => pure acc
  | d :: ds, acc => do
      let deal_id := strOpt d.id
      let contact_ids ← fetch_association_ids env deal_id "contacts"
      let company_ids ← fetch_association_ids env deal_id "companies"
      assoc_loop env ds
        { all_contact_ids := acc.all_contact_ids ++ contact_ids
          all_company_ids := acc.all_company_ids ++ company_ids
          deal_to_first_contact :=
            updO acc.deal_to_first_contact deal_id contact_ids.head?
          deal_to_first_company :=
            updO acc.deal_to_first_company deal_id company_ids.head? }

/-- The row-construction loop of `build_csv_rows` (source lines 295–328):
one row is appended per deal, in order; the owner cache is threaded through
`resolve_owner_name`. -/
def rows_loop (env : Env) (contacts companies : String → Option Props)
    (deal_to_first_contact deal_to_first_company : String → Option String) :
    List Deal → (String → Option String) →
    M (List (List String) × (String → Option String))
  | [], owners => pure ([], owners)
  | d :: ds, owners => do
      let r ← resolve_owner_name env (ownerIdArg d) owners
      let rest ← rows_loop env contacts companies deal_to_first_contact
        deal_to_first_company ds r.2
      pure (projectFields contacts companies deal_to_first_contact
        deal_to_first_company d r.1 :: rest.1, rest.2)

/-- `build_csv_rows` (source lines 257–330). -/
def build_csv_rows (env : Env) (fuel : Nat) (deals : List Deal) :
    M (List String × List (List String)) := do
  let owners ← fetch_owner_lookup env fuel
  let acc ← assoc_loop env deals
    { all_contact_ids := []
      all_company_ids := []
      deal_to_first_contact := fun _ => none
      deal_to_first_company := fun _ => none }
  let contacts ← batch_read_objects env "contacts" acc.all_contact_ids
    ["firstname", "lastname", "email"]
  let companies ← batch_read_objects env "companies" acc.all_company_ids
    ["name", "domain"]
  let r ← rows_loop env contacts companies acc.deal_to_first_contact
    acc.deal_to_first_company deals owners
  pure (csvHeader, r.1)

/-- The fetch-then-build core of `main` (source lines 355–360): bounded mode
is chosen exactly when `args.limit and args.limit > 0` is truthy. -/
def runPipeline (env : Env) (fuel : Nat) (limit : Int) :
    M (List String × List (List String)) := do
  let deals ←
    if limit > 0 then fetch_ytd_deals_excluding_closed env limit
    else fetch_ytd_deals_excluding_closed_all env fuel
  build_csv_rows env fuel deals

/-! ## Lemmas about deduplication and chunking -/

theorem foldl_dedup_mem (l : List String) :
    ∀ (acc : List String) (y : String),
    y ∈ l.foldl (fun acc x => if x ∈ acc then acc else acc ++ [x]) acc ↔
      y ∈ acc ∨ y ∈ l := by
  induction l with
  | nil => intro acc y; simp
  | cons x xs ih =>
      intro acc y
      rw [List.foldl_cons]
      by_cases hx : x ∈ acc
      · rw [if_pos hx, ih]
        constructor
        · rintro (h | h)
          · exact Or.inl h
          · exact Or.inr (List.mem_cons_of_mem x h)
        · rintro (h | h)
          · exact Or.inl h
          · rcases List.mem_cons.mp h with rfl | h
            · exact Or.inl hx
            · exact Or.inr h
      · rw [if_neg hx, ih]
        simp only [List.mem_append, List.mem_singleton, List.mem_cons]
        tauto

theorem mem_dedupKeepFirst (l : List String) (x : String) :
    x ∈ dedupKeepFirst l ↔ x ∈ l := by
  rw [dedupKeepFirst, foldl_dedup_mem]
  simp

theorem foldl_dedup_nodup (l : List String) :
    ∀ acc : List String, acc.Nodup →
    (l.foldl (fun acc x => if x ∈ acc then acc else acc ++ [x]) acc).Nodup := by
  induction l with
  | nil => intro acc h; simpa using h
  | cons x xs ih =>
      intro acc h
      rw [List.foldl_cons]
      by_cases hx : x ∈ acc
      · rw [if_pos hx]; exact ih acc h
      · rw [if_neg hx]
        refine ih (acc ++ [x]) ?_
        rw [List.nodup_append]
        refine ⟨h, List.nodup_singleton x, ?_⟩
        intro a ha hax
        rw [List.mem_singleton] at hax
        exact hx (hax ▸ ha)

theorem nodup_dedupKeepFirst (l : List String) : (dedupKeepFirst l).Nodup :=
  foldl_dedup_nodup l [] List.nodup_nil

theorem count_dedupKeepFirst (l : List String) (x : String) (hx : x ∈ l) :
    (dedupKeepFirst l).count x = 1 := by
  have hmem : x ∈ dedupKeepFirst l := (mem_dedupKeepFirst l x).mpr hx
  have hnd := nodup_dedupKeepFirst l
  have hle := List.nodup_iff_count_le_one.mp hnd x
  have hpos : 0 < (dedupKeepFirst l).count x := List.count_pos_iff.mpr hmem
  omega

theorem foldl_dedup_sublist (l : List String) :
    ∀ acc : List String, ∃ extra : List String,
      l.foldl (fun acc x => if x ∈ acc then acc else acc ++ [x]) acc =
        acc ++ extra ∧ List.Sublist extra l := by
  induction l with
  | nil => intro acc; exact ⟨[], by simp, List.nil_sublist []⟩
  | cons x xs ih =>
      intro acc
      rw [List.foldl_cons]
      by_cases hx : x ∈ acc
      · rw [if_pos hx]
        obtain ⟨extra, h1, h2⟩ := ih acc
        exact ⟨extra, h1, h2.trans (List.sublist_cons_self x xs)⟩
      · rw [if_neg hx]
        obtain ⟨extra, h1, h2⟩ := ih (acc ++ [x])
        refine ⟨x :: extra, ?_, List.Sublist.cons₂ x h2⟩
        rw [h1, List.append_assoc]
        rfl

theorem sublist_dedupKeepFirst (l : List String) :
    List.Sublist (dedupKeepFirst l) l := by
  obtain ⟨extra, h1, h2⟩ := foldl_dedup_sublist l []
  rw [dedupKeepFirst, h1]
  simpa using h2

theorem foldl_dedup_eq_self (l : List String) :
    ∀ acc : List String, (acc ++ l).Nodup →
    l.foldl (fun acc x => if x ∈ acc then acc else acc ++ [x]) acc = acc ++ l := by
  induction l with
  | nil => intro acc _; simp
  | cons x xs ih =>
      intro acc h
      have hx : x ∉ acc := by
        intro hmem
        have := List.disjoint_of_nodup_append h
        exact this hmem (List.mem_cons_self x xs)
      rw [List.foldl_cons, if_neg hx]
      have h' : ((acc ++ [x]) ++ xs).Nodup := by
        rw [List.append_assoc]
        simpa using h
      rw [ih (acc ++ [x]) h', List.append_assoc]
      rfl

theorem dedupKeepFirst_eq_self (l : List String) (h : l.Nodup) :
    dedupKeepFirst l = l := by
  rw [dedupKeepFirst, foldl_dedup_eq_self l [] (by simpa using h)]
  rfl

theorem chunksOfGo_fuel (k : Nat) (hk : 1 ≤ k) :
    ∀ (n m : Nat) (l : List String), l.length ≤ n → l.length ≤ m →
    chunksOfGo k n l = chunksOfGo k m l := by
  intro n
  induction n with
  | zero =>
      intro m l hn _
      have : l = [] := List.eq_nil_of_length_eq_zero (Nat.le_zero.mp hn)
      subst this
      cases m <;> rfl
  | succ n ih =>
      intro m l hn hm
      cases l with
      | nil => cases m <;> rfl
      | cons x xs =>
          cases m with
          | zero => simp at hm
          | succ m =>
              rw [chunksOfGo, chunksOfGo]
              have hd : ((x :: xs).drop k).length ≤ n := by
                rw [List.length_drop]
                simp only [List.length_cons] at hn ⊢
                omega
              have hd2 : ((x :: xs).drop k).length ≤ m := by
                rw [List.length_drop]
                simp only [List.length_cons] at hm ⊢
                omega
              rw [ih m ((x :: xs).drop k) hd hd2]

theorem chunksOf_nil (k : Nat) : chunksOf k [] = [] := rfl

theorem chunksOf_cons_of_ne (k : Nat) (l : List String) (hl : l ≠ [])
    (hk : k ≠ 0) : chunksOf k l = (l.take k) :: chunksOf k (l.drop k) := by
  cases l with
  | nil => exact absurd rfl hl
  | cons x xs =>
      rw [chunksOf, List.length_cons, chunksOfGo, chunksOf]
      rw [chunksOfGo_fuel k (by omega) xs.length ((x :: xs).drop k).length
        ((x :: xs).drop k) (by rw [List.length_drop]; simp; omega) (Nat.le_refl _)]

theorem chunksOf_length_le_aux : ∀ (n : Nat) (l c : List String),
    l.length ≤ n → c ∈ chunksOf 100 l → c.length ≤ 100 := by
  intro n
  induction n with
  | zero =>
      intro l c hn hc
      have : l = [] := List.eq_nil_of_length_eq_zero (Nat.le_zero.mp hn)
      subst this
      rw [chunksOf_nil] at hc
      simp at hc
  | succ n ih =>
      intro l c hn hc
      by_cases hl : l = []
      · subst hl; rw [chunksOf_nil] at hc; simp at hc
      · rw [chunksOf_cons_of_ne 100 l hl (by omega)] at hc
        rcases List.mem_cons.mp hc with h | h
        · subst h
          rw [List.length_take]
          exact Nat.min_le_left 100 l.length
        · refine ih (l.drop 100) c ?_ h
          rw [List.length_drop]
          have hpos : 0 < l.length := List.length_pos.mpr hl
          omega

theorem chunksOf_length_le (l c : List String) (hc : c ∈ chunksOf 100 l) :
    c.length ≤ 100 :=
  chunksOf_length_le_aux l.length l c (Nat.le_refl _) hc

theorem chunksOf_lengths_250 (l : List String) (hl : l.length = 250) :
    (chunksOf 100 l).map List.length = [100, 100, 50] := by
  have h1 : l ≠ [] := by intro h; subst h; simp at hl
  rw [chunksOf_cons_of_ne 100 l h1 (by omega)]
  have hd1 : (l.drop 100).length = 150 := by rw [List.length_drop, hl]
  have h2 : l.drop 100 ≠ [] := by
    intro h; rw [h] at hd1; simp at hd1
  rw [chunksOf_cons_of_ne 100 (l.drop 100) h2 (by omega)]
  have hd2 : ((l.drop 100).drop 100).length = 50 := by
    rw [List.length_drop, hd1]
  have h3 : (l.drop 100).drop 100 ≠ [] := by
    intro h; rw [h] at hd2; simp at hd2
  rw [chunksOf_cons_of_ne 100 ((l.drop 100).drop 100) h3 (by omega)]
  have hd3 : (((l.drop 100).drop 100).drop 100) = [] := by
    have : (((l.drop 100).drop 100).drop 100).length = 0 := by
      rw [List.length_drop, hd2]
    exact List.eq_nil_of_length_eq_zero this
  rw [hd3, chunksOf_nil]
  simp only [List.map_cons, List.map_nil]
  rw [List.length_take, List.length_take, List.length_take]
  rw [hl, hd1, hd2]
  decide

/-- Folding batch-response items into the result map never creates an entry
for an identifier that is not one of the response keys. -/
theorem foldl_upd_preserve (items : List BatchItem)
    (m : String → Option Props) (x : String)
    (hx : x ∉ items.map (fun it => strOpt it.id)) (hm : m x = none) :
    (items.foldl (fun m item => upd m (strOpt item.id) item.properties) m) x
      = none := by
  induction items generalizing m with
  | nil => exact hm
  | cons it rest ih =>
      simp only [List.map_cons, List.mem_cons] at hx
      push_neg at hx
      refine ih _ hx.2 ?_
      simp only [upd]
      rw [if_neg hx.1]
      exact hm

/-- The chunk loop issues exactly one request per chunk (in order) when every
chunk call succeeds. -/
theorem batch_chunks_loop_log (env : Env) (ot : String) (props : List String) :
    ∀ (chunks : List (List String)) (acc : String → Option Props) (l : Log),
    (∀ c ∈ chunks, isOkE (env.batch ot c props) = true) →
    (batch_chunks_loop env ot props chunks acc l).2 =
      l ++ chunks.map (fun c => Req.batch ot c props) := by
  intro chunks
  induction chunks with
  | nil => intro acc l _; simp [batch_chunks_loop, pure_run]
  | cons c rest ih =>
      intro acc l hok
      have hc : isOkE (env.batch ot c props) = true := hok c (List.mem_cons_self c rest)
      rw [batch_chunks_loop]
      cases hb : env.batch ot c props with
      | error e => rw [hb] at hc; simp [isOkE] at hc
      | ok items =>
          have hcall : callBatch env ot c props l =
              (Except.ok items, l ++ [Req.batch ot c props]) := by
            simp [callBatch, hb, mapErr]
          rw [bind_run_ok hcall]
          rw [ih _ _ (fun c' hc' => hok c' (List.mem_cons_of_mem c hc'))]
          simp

/-- On a failing chunk call, the loop aborts right after logging that
request. -/
theorem batch_chunks_loop_log_error (env : Env) (ot : String)
    (props : List String) (c : List String) (rest : List (List String))
    (acc : String → Option Props) (l : Log) (e : String)
    (hb : env.batch ot c props = Except.error e) :
    batch_chunks_loop env ot props (c :: rest) acc l =
      (Except.error (Err.api e), l ++ [Req.batch ot c props]) := by
  rw [batch_chunks_loop]
  have hcall : callBatch env ot c props l =
      (Except.error (Err.api e), l ++ [Req.batch ot c props]) := by
    simp [callBatch, hb, mapErr]
  exact bind_run_error hcall

/-! ## Pagination chains (search endpoint) -/

/-- A terminating run of search responses: starting from cursor state `a`,
each page is served successfully; every page but the last carries a truthy
continuation cursor, and the last page's cursor is falsy (absent or empty). -/
inductive SearchChain (env : Env) : Option String → List SearchPage → Prop
  | last (a : Option String) (p : SearchPage)
      (hp : env.search 100 (reqAfter a) = Except.ok p)
      (hafter : truthyOpt p.after = false) :
      SearchChain env a [p]
  | step (a : Option String) (p : SearchPage) (ps : List SearchPage)
      (hp : env.search 100 (reqAfter a) = Except.ok p)
      (hafter : truthyOpt p.after = true)
      (hrest : SearchChain env p.after ps) :
      SearchChain env a (p :: ps)

/-- The search requests a chain gives rise to: one per page, each carrying
the cursor of the previous page (no cursor before the first page). -/
def chainReqs : Option String → List SearchPage → Log
  | _, [] => []
  | a, p :: ps => Req.search 100 (reqAfter a) :: chainReqs p.after ps

theorem chainReqs_length : ∀ (a : Option String) (ps : List SearchPage),
    (chainReqs a ps).length = ps.length
  | _, [] => rfl
  | a, p :: ps => by rw [chainReqs, List.length_cons, List.length_cons,
      chainReqs_length p.after ps]

/-- The unbounded pagination loop consumes a terminating chain exactly:
it returns the concatenated results of all pages (the cursorless final page
included) and issues exactly one request per page — in particular, no
request at all after the page whose cursor is absent. -/
theorem fetch_all_loop_chain (env : Env) :
    ∀ (ps : List SearchPage) (a : Option String), SearchChain env a ps →
    ∀ (fuel : Nat), ps.length ≤ fuel →
    ∀ (acc : List Deal) (l : Log),
    fetch_all_loop env fuel a acc l =
      (Except.ok (acc ++ (ps.map SearchPage.results).flatten),
       l ++ chainReqs a ps) := by
  intro ps a hchain
  induction hchain with
  | last a p hp hafter =>
      intro fuel hfuel acc l
      match fuel, hfuel with
      | Nat.succ fuel, _ =>
        rw [fetch_all_loop]
        have hcall : callSearch env 100 (reqAfter a) l =
            (Except.ok p, l ++ [Req.search 100 (reqAfter a)]) := by
          simp [callSearch, hp, mapErr]
        rw [bind_run_ok hcall, hafter]
        simp [pure_run, chainReqs]
  | step a p ps hp hafter hrest ih =>
      intro fuel hfuel acc l
      match fuel, hfuel with
      | Nat.succ fuel, hfuel =>
        rw [fetch_all_loop]
        have hcall : callSearch env 100 (reqAfter a) l =
            (Except.ok p, l ++ [Req.search 100 (reqAfter a)]) := by
          simp [callSearch, hp, mapErr]
        rw [bind_run_ok hcall, hafter]
        simp only [if_true]
        rw [ih fuel (by simpa using hfuel) (acc ++ p.results)
          (l ++ [Req.search 100 (reqAfter a)])]
        simp [chainReqs]

/-- `resolve_owner_name` never aborts the run: it always returns `ok`,
appending at most one `ownerGet` request to the log. -/
theorem resolve_owner_name_ok (env : Env) (owner_id : Option String)
    (owners : String → Option String) (l : Log) :
    ∃ (name : String) (owners' : String → Option String) (lg : Log),
      resolve_owner_name env owner_id owners l =
        (Except.ok (name, owners'), l ++ lg) := by
  rw [resolve_owner_name]
  by_cases ht : truthyOpt owner_id = false
  · rw [if_pos ht]
    exact ⟨"", owners, [], by simp [pure_run]⟩
  · rw [if_neg ht]
    cases hc : owners (orEmpty owner_id) with
    | some n => exact ⟨n, owners, [], by simp [pure_run]⟩
    | none =>
        cases hg : env.ownerGet (orEmpty owner_id) with
        | ok data =>
            simp only [hg]
            exact ⟨_, _, [Req.ownerGet (orEmpty owner_id)], rfl⟩
        | error e =>
            simp only [hg]
            exact ⟨orEmpty owner_id, owners,
              [Req.ownerGet (orEmpty owner_id)], rfl⟩

/-- The row loop always succeeds and produces exactly one row per deal, in
the original order: the rows are `projectFields` applied deal-by-deal,
paired with the owner names resolved along the way. -/
theorem rows_loop_spec (env : Env) (contacts companies : String → Option Props)
    (d2c d2co : String → Option String) :
    ∀ (deals : List Deal) (owners : String → Option String) (l : Log),
    ∃ (names : List String) (owners' : String → Option String) (lg : Log),
      names.length = deals.length ∧
      rows_loop env contacts companies d2c d2co deals owners l =
        (Except.ok
          (List.zipWith (fun d n => projectFields contacts companies d2c d2co d n)
            deals names, owners'),
         l ++ lg) := by
  intro deals
  induction deals with
  | nil =>
      intro owners l
      exact ⟨[], owners, [], rfl, by simp [rows_loop, pure_run]⟩
  | cons d ds ih =>
      intro owners l
      obtain ⟨nm, ow1, lg1, hres⟩ := resolve_owner_name_ok env (ownerIdArg d) owners l
      obtain ⟨names, ow2, lg2, hlen, hrest⟩ := ih ow1 (l ++ lg1)
      refine ⟨nm :: names, ow2, lg1 ++ lg2, by simp [hlen], ?_⟩
      rw [rows_loop]
      rw [bind_run_ok hres]
      rw [bind_run_ok hrest]
      simp [pure_run, List.zipWith]

/-! ## Fail-fast accounting for search / association / batch requests -/

/-- The request classes whose transport failure the source treats as fatal
for the claim at hand: search pagination, association resolution, batch
entity reading. -/
def isSAB : Req → Bool
  | Req.search _ _ => true
  | Req.assoc _ _ => true
  | Req.batch _ _ _ => true
  | Req.ownersPage _ => false
  | Req.ownerGet _ => false

/-- The environment answers this request successfully. -/
def envOk (env : Env) : Req → Prop
  | Req.search lim a => isOkE (env.search lim a) = true
  | Req.assoc d t => isOkE (env.assoc d t) = true
  | Req.batch ot c ps => isOkE (env.batch ot c ps) = true
  | Req.ownersPage a => isOkE (env.ownersPage a) = true
  | Req.ownerGet i => isOkE (env.ownerGet i) = true

/-- Every search/association/batch request in this log fragment succeeded. -/
def NoBadSAB (env : Env) (lg : Log) : Prop :=
  ∀ q ∈ lg, isSAB q = true → envOk env q

/-- A computation is log-monotone, and whenever it finishes with `ok`, every
fatal-class (search/assoc/batch) request it issued was answered
successfully — i.e. a failing fatal-class call never lets the computation
produce a result. -/
def OkSafe {α : Type} (env : Env) (x : M α) : Prop :=
  ∀ l : Log, ∃ (r : Except Err α) (new : Log),
    x l = (r, l ++ new) ∧ ∀ a : α, r = Except.ok a → NoBadSAB env new

theorem noBadSAB_nil (env : Env) : NoBadSAB env [] := by
  intro q hq
  simp at hq

theorem noBadSAB_append {env : Env} {l1 l2 : Log} (h1 : NoBadSAB env l1)
    (h2 : NoBadSAB env l2) : NoBadSAB env (l1 ++ l2) := by
  intro q hq hsab
  rcases List.mem_append.mp hq with h | h
  · exact h1 q h hsab
  · exact h2 q h hsab

theorem okSafe_pure {α : Type} (env : Env) (a : α) : OkSafe env (pure a : M α) := by
  intro l
  exact ⟨Except.ok a, [], by simp [pure_run], fun _ _ => noBadSAB_nil env⟩

theorem okSafe_bind {α β : Type} {env : Env} {x : M α} {f : α → M β}
    (hx : OkSafe env x) (hf : ∀ a, OkSafe env (f a)) : OkSafe env (x >>= f) := by
  intro l
  obtain ⟨r, n1, h1, h2⟩ := hx l
  cases r with
  | error e =>
      exact ⟨Except.error e, n1, by rw [bind_run, h1], fun a ha => nomatch ha⟩
  | ok a =>
      obtain ⟨r2, n2, h3, h4⟩ := hf a (l ++ n1)
      refine ⟨r2, n1 ++ n2, ?_, ?_⟩
      · rw [bind_run, h1]
        show f a (l ++ n1) = (r2, l ++ (n1 ++ n2))
        rw [h3, List.append_assoc]
      · intro b hb
        exact noBadSAB_append (h2 a rfl) (h4 b hb)

theorem okSafe_callSearch (env : Env) (lim : Int) (a : Option String) :
    OkSafe env (callSearch env lim a) := by
  intro l
  refine ⟨mapErr (env.search lim a), [Req.search lim a], rfl, ?_⟩
  intro p hp q hq hsab
  rcases List.mem_singleton.mp hq with rfl
  cases hs : env.search lim a with
  | ok v => simp [envOk, isOkE, hs]
  | error e => rw [hs] at hp; simp [mapErr] at hp

theorem okSafe_callAssoc (env : Env) (d t : String) :
    OkSafe env (callAssoc env d t) := by
  intro l
  refine ⟨mapErr (env.assoc d t), [Req.assoc d t], rfl, ?_⟩
  intro p hp q hq hsab
  rcases List.mem_singleton.mp hq with rfl
  cases hs : env.assoc d t with
  | ok v => simp [envOk, isOkE, hs]
  | error e => rw [hs] at hp; simp [mapErr] at hp

theorem okSafe_callBatch (env : Env) (ot : String) (c ps : List String) :
    OkSafe env (callBatch env ot c ps) := by
  intro l
  refine ⟨mapErr (env.batch ot c ps), [Req.batch ot c ps], rfl, ?_⟩
  intro p hp q hq hsab
  rcases List.mem_singleton.mp hq with rfl
  cases hs : env.batch ot c ps with
  | ok v => simp [envOk, isOkE, hs]
  | error e => rw [hs] at hp; simp [mapErr] at hp

theorem okSafe_callOwnersPage (env : Env) (a : Option String) :
    OkSafe env (callOwnersPage env a) := by
  intro l
  refine ⟨mapErr (env.ownersPage a), [Req.ownersPage a], rfl, ?_⟩
  intro p hp q hq hsab
  rcases List.mem_singleton.mp hq with rfl
  simp [isSAB] at hsab

theorem okSafe_error {α : Type} (env : Env) (e : Err) :
    OkSafe env (fun l => (Except.error e, l) : M α) := by
  intro l
  exact ⟨Except.error e, [], by simp, fun a ha => nomatch ha⟩

theorem okSafe_fetch_bounded (env : Env) (limit : Int) :
    OkSafe env (fetch_ytd_deals_excluding_closed env limit) :=
  okSafe_bind (okSafe_callSearch env limit none)
    (fun data => okSafe_pure env data.results)

theorem okSafe_fetch_all_loop (env : Env) :
    ∀ (fuel : Nat) (a : Option String) (acc : List Deal),
    OkSafe env (fetch_all_loop env fuel a acc) := by
  intro fuel
  induction fuel with
  | zero => intro a acc; exact okSafe_error env Err.outOfFuel
  | succ fuel ih =>
      intro a acc
      rw [fetch_all_loop]
      refine okSafe_bind (okSafe_callSearch env 100 (reqAfter a)) ?_
      intro data
      by_cases hT : truthyOpt data.after = true
      · rw [if_pos hT]; exact ih data.after (acc ++ data.results)
      · rw [if_neg hT]; exact okSafe_pure env (acc ++ data.results)

theorem okSafe_owners_loop (env : Env) :
    ∀ (fuel : Nat) (a : Option String) (owners : String → Option String),
    OkSafe env (owners_loop env fuel a owners) := by
  intro fuel
  induction fuel with
  | zero => intro a owners; exact okSafe_error env Err.outOfFuel
  | succ fuel ih =>
      intro a owners
      rw [owners_loop]
      refine okSafe_bind (okSafe_callOwnersPage env (reqAfter a)) ?_
      intro data
      by_cases hT : truthyOpt data.after = true
      · rw [if_pos hT]; exact ih data.after (data.results.foldl ownerItemInsert owners)
      · rw [if_neg hT]; exact okSafe_pure env (data.results.foldl ownerItemInsert owners)

theorem okSafe_fetch_association_ids (env : Env) (d t : String) :
    OkSafe env (fetch_association_ids env d t) :=
  okSafe_bind (okSafe_callAssoc env d t)
    (fun data => okSafe_pure env (extractAssocIds data))

theorem okSafe_assoc_loop (env : Env) :
    ∀ (deals : List Deal) (acc : AssocAcc), OkSafe env (assoc_loop env deals acc) := by
  intro deals
  induction deals with
  | nil => intro acc; exact okSafe_pure env acc
  | cons d ds ih =>
      intro acc
      rw [assoc_loop]
      refine okSafe_bind (okSafe_fetch_association_ids env (strOpt d.id) "contacts") ?_
      intro contact_ids
      refine okSafe_bind (okSafe_fetch_association_ids env (strOpt d.id) "companies") ?_
      intro company_ids
      exact ih _

theorem okSafe_batch_chunks_loop (env : Env) (ot : String) (props : List String) :
    ∀ (chunks : List (List String)) (acc : String → Option Props),
    OkSafe env (batch_chunks_loop env ot props chunks acc) := by
  intro chunks
  induction chunks with
  | nil => intro acc; exact okSafe_pure env acc
  | cons c rest ih =>
      intro acc
      rw [batch_chunks_loop]
      refine okSafe_bind (okSafe_callBatch env ot c props) ?_
      intro data
      exact ih _

theorem okSafe_batch_read_objects (env : Env) (ot : String) (ids props : List String) :
    OkSafe env (batch_read_objects env ot ids props) := by
  rw [batch_read_objects]
  by_cases h : ids.isEmpty
  · rw [if_pos h]; exact okSafe_pure env _
  · rw [if_neg h]
    exact okSafe_batch_chunks_loop env ot props _ _

/-- `resolve_owner_name` always succeeds, and its log contribution is either
empty (falsy id, or cache hit) or the single fallback `ownerGet` request. -/
theorem resolve_owner_name_run (env : Env) (oid : Option String)
    (owners : String → Option String) (l : Log) :
    ∃ (name : String) (owners' : String → Option String),
      resolve_owner_name env oid owners l = (Except.ok (name, owners'), l) ∨
      resolve_owner_name env oid owners l =
        (Except.ok (name, owners'), l ++ [Req.ownerGet (orEmpty oid)]) := by
  rw [resolve_owner_name]
  by_cases ht : truthyOpt oid = false
  · rw [if_pos ht]
    exact ⟨"", owners, Or.inl (by simp [pure_run])⟩
  · rw [if_neg ht]
    cases hc : owners (orEmpty oid) with
    | some n => exact ⟨n, owners, Or.inl (by simp [pure_run])⟩
    | none =>
        cases hg : env.ownerGet (orEmpty oid) with
        | ok data =>
            simp only [hg]
            exact ⟨_, _, Or.inr rfl⟩
        | error e =>
            simp only [hg]
            exact ⟨_, _, Or.inr rfl⟩

theorem okSafe_resolve_owner_name (env : Env) (oid : Option String)
    (owners : String → Option String) :
    OkSafe env (resolve_owner_name env oid owners) := by
  intro l
  obtain ⟨name, owners', h | h⟩ := resolve_owner_name_run env oid owners l
  · refine ⟨Except.ok (name, owners'), [], by simpa using h, ?_⟩
    intro a _
    exact noBadSAB_nil env
  · refine ⟨Except.ok (name, owners'), [Req.ownerGet (orEmpty oid)], h, ?_⟩
    intro a _ q hq hsab
    rcases List.mem_singleton.mp hq with rfl
    simp [isSAB] at hsab

theorem okSafe_rows_loop (env : Env) (contacts companies : String → Option Props)
    (d2c d2co : String → Option String) :
    ∀ (deals : List Deal) (owners : String → Option String),
    OkSafe env (rows_loop env contacts companies d2c d2co deals owners) := by
  intro deals
  induction deals with
  | nil => intro owners; exact okSafe_pure env _
  | cons d ds ih =>
      intro owners
      rw [rows_loop]
      refine okSafe_bind (okSafe_resolve_owner_name env (ownerIdArg d) owners) ?_
      intro r
      refine okSafe_bind (ih r.2) ?_
      intro rest
      exact okSafe_pure env _

theorem okSafe_build_csv_rows (env : Env) (fuel : Nat) (deals : List Deal) :
    OkSafe env (build_csv_rows env fuel deals) := by
  rw [build_csv_rows]
  refine okSafe_bind (okSafe_owners_loop env fuel none _) ?_
  intro owners
  refine okSafe_bind (okSafe_assoc_loop env deals _) ?_
  intro acc
  refine okSafe_bind (okSafe_batch_read_objects env "contacts" _ _) ?_
  intro contacts
  refine okSafe_bind (okSafe_batch_read_objects env "companies" _ _) ?_
  intro companies
  refine okSafe_bind (okSafe_rows_loop env contacts companies _ _ deals owners) ?_
  intro r
  exact okSafe_pure env _

theorem okSafe_runPipeline (env : Env) (fuel : Nat) (limit : Int) :
    OkSafe env (runPipeline env fuel limit) := by
  rw [runPipeline]
  by_cases h : limit > 0
  · rw [if_pos h]
    exact okSafe_bind (okSafe_fetch_bounded env limit)
      (fun deals => okSafe_build_csv_rows env fuel deals)
  · rw [if_neg h]
    exact okSafe_bind (okSafe_fetch_all_loop env fuel none [])
      (fun deals => okSafe_build_csv_rows env fuel deals)

/-! ## Run-level helpers -/

/-- Through the chunk loop, an identifier that no successful batch response
mentions never acquires an entry in the result map. -/
theorem batch_chunks_loop_absent (env : Env) (ot : String) (props : List String) :
    ∀ (chunks : List (List String)) (acc : String → Option Props)
      (l : Log) (m : String → Option Props) (l' : Log),
    batch_chunks_loop env ot props chunks acc l = (Except.ok m, l') →
    ∀ x : String,
    (∀ c ∈ chunks, ∀ items, env.batch ot c props = Except.ok items →
      x ∉ items.map (fun it => strOpt it.id)) →
    acc x = none → m x = none := by
  intro chunks
  induction chunks with
  | nil =>
      intro acc l m l' h x _ hacc
      rw [batch_chunks_loop, pure_run] at h
      have hm : acc = m := by
        have := congrArg Prod.fst h
        simpa using this
      rw [← hm]
      exact hacc
  | cons c rest ih =>
      intro acc l m l' h x hx hacc
      rw [batch_chunks_loop] at h
      cases hb : env.batch ot c props with
      | error e =>
          have hcall : callBatch env ot c props l =
              (Except.error (Err.api e), l ++ [Req.batch ot c props]) := by
            simp [callBatch, hb, mapErr]
          rw [bind_run_error hcall] at h
          simp at h
      | ok items =>
          have hcall : callBatch env ot c props l =
              (Except.ok items, l ++ [Req.batch ot c props]) := by
            simp [callBatch, hb, mapErr]
          rw [bind_run_ok hcall] at h
          refine ih _ _ _ _ h x
            (fun c' hc' => hx c' (List.mem_cons_of_mem c hc')) ?_
          exact foldl_upd_preserve items acc x
            (hx c (List.mem_cons_self c rest) items hb) hacc

/-- `batch_read_objects` leaves an identifier out of the result map whenever
no successful bulk-read response mentions it. -/
theorem batch_read_objects_absent (env : Env) (ot : String)
    (ids props : List String) (l : Log) (m : String → Option Props) (l' : Log)
    (h : batch_read_objects env ot ids props l = (Except.ok m, l'))
    (x : String)
    (hx : ∀ c ∈ chunksOf 100 (dedupKeepFirst ids), ∀ items,
      env.batch ot c props = Except.ok items →
      x ∉ items.map (fun it => strOpt it.id)) :
    m x = none := by
  rw [batch_read_objects] at h
  by_cases he : ids.isEmpty
  · rw [if_pos he, pure_run] at h
    have hm : (fun _ => (none : Option Props)) = m := by
      have := congrArg Prod.fst h
      simpa using this
    rw [← hm]
  · rw [if_neg he] at h
    exact batch_chunks_loop_absent env ot props _ _ _ _ _ h x hx rfl

/-- One full run of `build_csv_rows` either aborts, or returns the fixed
header and one row per deal. -/
theorem build_csv_rows_run (env : Env) (fuel : Nat) (deals : List Deal) (l : Log) :
    (∃ (e : Err) (l' : Log),
      build_csv_rows env fuel deals l = (Except.error e, l')) ∨
    (∃ (rows : List (List String)) (l' : Log),
      build_csv_rows env fuel deals l = (Except.ok (csvHeader, rows), l') ∧
      rows.length = deals.length) := by
  rw [build_csv_rows]
  rcases h1 : fetch_owner_lookup env fuel l with ⟨r1, l1⟩
  cases r1 with
  | error e => exact Or.inl ⟨e, l1, bind_run_error h1⟩
  | ok owners =>
      simp only [bind_run_ok h1]
      rcases h2 : assoc_loop env deals
        { all_contact_ids := []
          all_company_ids := []
          deal_to_first_contact := fun _ => none
          deal_to_first_company := fun _ => none } l1 with ⟨r2, l2⟩
      cases r2 with
      | error e => exact Or.inl ⟨e, l2, bind_run_error h2⟩
      | ok acc =>
          simp only [bind_run_ok h2]
          rcases h3 : batch_read_objects env "contacts" acc.all_contact_ids
            ["firstname", "lastname", "email"] l2 with ⟨r3, l3⟩
          cases r3 with
          | error e => exact Or.inl ⟨e, l3, bind_run_error h3⟩
          | ok contacts =>
              simp only [bind_run_ok h3]
              rcases h4 : batch_read_objects env "companies" acc.all_company_ids
                ["name", "domain"] l3 with ⟨r4, l4⟩
              cases r4 with
              | error e => exact Or.inl ⟨e, l4, bind_run_error h4⟩
              | ok companies =>
                  simp only [bind_run_ok h4]
                  obtain ⟨names, ow', lg, hlen, hrun⟩ := rows_loop_spec env
                    contacts companies acc.deal_to_first_contact
                    acc.deal_to_first_company deals owners l4
                  simp only [bind_run_ok hrun, pure_run]
                  refine Or.inr ⟨_, _, rfl, ?_⟩
                  rw [List.length_zipWith, hlen, Nat.min_self]

/-! ## Concrete environments and inputs used in witnesses -/

/-- An owner record used by test environments. -/
def tOwnerRec : OwnerRec :=
  { firstName := some "Jane", lastName := some "Doe", email := some "j@x.com" }

/-- An environment in which every endpoint succeeds (with empty result sets,
and `tOwnerRec` for the single-owner lookup). -/
def happyEnv : Env where
  search := fun _ _ => Except.ok { results := [], after := none }
  assoc := fun _ _ => Except.ok []
  batch := fun _ _ _ => Except.ok []
  ownersPage := fun _ => Except.ok { results := [], after := none }
  ownerGet := fun _ => Except.ok tOwnerRec

/-- An environment in which every endpoint fails. -/
def failEnv : Env where
  search := fun _ _ => Except.error "HTTP 500"
  assoc := fun _ _ => Except.error "HTTP 500"
  batch := fun _ _ _ => Except.error "HTTP 500"
  ownersPage := fun _ => Except.error "HTTP 500"
  ownerGet := fun _ => Except.error "HTTP 500"

/-- An environment whose batch endpoint knows only the company `"1"`. -/
def c10Env : Env where
  search := fun _ _ => Except.ok { results := [], after := none }
  assoc := fun _ _ => Except.ok []
  batch := fun _ _ _ =>
    Except.ok [{ id := some "1", properties := [("name", "ACME")] }]
  ownersPage := fun _ => Except.ok { results := [], after := none }
  ownerGet := fun _ => Except.ok tOwnerRec

def c6Deal0 : Deal := { id := some "A", properties := [("dealname", "Alpha")] }

def c6Deal1 : Deal := { id := some "B", properties := [("dealname", "Beta")] }

def c6Page0 : SearchPage := { results := [c6Deal0], after := some "cur1" }

def c6Page1 : SearchPage := { results := [c6Deal1], after := none }

/-- A two-page search environment: the first page carries cursor `"cur1"`,
the second page has results but no cursor. -/
def c6Env : Env where
  search := fun _ a =>
    match a with
    | none => Except.ok c6Page0
    | some s => if s = "cur1" then Except.ok c6Page1 else Except.error "bad cursor"
  assoc := fun _ _ => Except.ok []
  batch := fun _ _ _ => Except.ok []
  ownersPage := fun _ => Except.ok { results := [], after := none }
  ownerGet := fun _ => Except.ok tOwnerRec

def c1Deal : Deal := { id := some "1", properties := [("dealname", "Acme")] }

/-- 250 pairwise-distinct identifiers. -/
def ids250 : List String :=
  (List.range 250).map (fun n => String.mk (List.replicate (n + 1) 'a'))

theorem ids250_nodup : ids250.Nodup := by
  refine List.Nodup.map ?_ (List.nodup_range 250)
  intro m n h
  have h1 : m + 1 = n + 1 := by
    have h2 := congrArg (fun s => s.data.length) h
    simpa using h2
  omega

theorem ids250_length : ids250.length = 250 := by
  rw [ids250, List.length_map, List.length_range]

def isOwnerGetReq : Req → Bool
  | Req.ownerGet _ => true
  | _ => false

/-- Does a request carry an empty identifier among its bulk-read inputs? -/
def reqHasEmptyInput : Req → Bool
  | Req.batch _ inputs _ => inputs.contains ""
  | _ => false

/-- The number of bulk-read inputs a request carries. -/
def reqInputsLen : Req → Nat
  | Req.batch _ inputs _ => inputs.length
  | _ => 0

/-- Resolve the same owner identifier twice in sequence, threading the cache
of the first resolution into the second exactly as the row loop of
`build_csv_rows` does, and return the combined request log. -/
def resolveTwiceLog (env : Env) (oid : Option String)
    (owners : String → Option String) : Log :=
  match resolve_owner_name env oid owners [] with
  | (Except.ok r, l1) => (resolve_owner_name env oid r.2 l1).2
  | (Except.error _, l1) => l1

/-- The display-name precedence rule as the specification words it:
`trim(first + " " + last)` if that is non-empty, else the email if
non-empty, else the raw identifier. -/
def specOwnerDisplayName (first last email rawId : String) : String :=
  if pyStrip (first ++ " " ++ last) ≠ "" then pyStrip (first ++ " " ++ last)
  else if email ≠ "" then email
  else rawId

example : (batch_read_objects c10Env "companies" ["1", "2"] ["name", "domain"] []).2
    = [Req.batch "companies" ["1", "2"] ["name", "domain"]] := by decide

example : (resolveTwiceLog failEnv (some "42") (fun _ => none)).length = 2 := by
  decide

example : dedupKeepFirst ["", "7", ""] = ["", "7"] := by decide

/-! ## Behavioural lemmas for `resolve_owner_name` -/

/-- A falsy owner identifier resolves to `""` with no network call. -/
theorem resolve_owner_name_falsy (env : Env) (owners : String → Option String)
    (l : Log) (oid : Option String) (h : truthyOpt oid = false) :
    resolve_owner_name env oid owners l = (Except.ok ("", owners), l) := by
  rw [resolve_owner_name, if_pos h]
  rfl

/-- A cache hit returns the cached name with no network call. -/
theorem resolve_owner_name_hit (env : Env) (oid n : String)
    (owners : String → Option String) (l : Log)
    (hne : oid ≠ "") (hc : owners oid = some n) :
    resolve_owner_name env (some oid) owners l = (Except.ok (n, owners), l) := by
  rw [resolve_owner_name, if_neg (by simp [truthyOpt, hne])]
  simp only [orEmpty, Option.getD_some, hc]
  rfl

/-- A cache miss with a successful fallback lookup derives the display name
by the precedence rule, memoizes it, and logs exactly one `ownerGet`
request. -/
theorem resolve_owner_name_miss_ok (env : Env) (oid : String)
    (owners : String → Option String) (l : Log) (data : OwnerRec)
    (hne : oid ≠ "") (hc : owners oid = none)
    (hg : env.ownerGet oid = Except.ok data) :
    resolve_owner_name env (some oid) owners l =
      (Except.ok
        (specOwnerDisplayName (orEmpty data.firstName) (orEmpty data.lastName)
          (orEmpty data.email) oid,
         upd owners oid
           (specOwnerDisplayName (orEmpty data.firstName) (orEmpty data.lastName)
             (orEmpty data.email) oid)),
       l ++ [Req.ownerGet oid]) := by
  rw [resolve_owner_name, if_neg (by simp [truthyOpt, hne])]
  simp only [orEmpty, Option.getD_some, hc, hg]
  rfl

theorem upd_self {α : Type} (m : String → Option α) (k : String) (v : α) :
    upd m k v k = some v := by
  simp [upd]

/-! ## The claims -/

/-- C1.  Row projection produces exactly one output row per fetched deal, in
the original fetched order, regardless of association/property/owner
resolution success: (a) the row loop of `build_csv_rows` always succeeds,
for arbitrary association maps, bulk-loaded property maps and environments
(hence for arbitrarily failing owner lookups), returning exactly
`projectFields` of the deals zipped, in order, with the resolved owner
names; (b) whenever `build_csv_rows` returns, its row count equals the deal
count. -/
theorem claim_C1 :
    (∀ (env : Env) (contacts companies : String → Option Props)
        (d2c d2co : String → Option String) (deals : List Deal)
        (owners : String → Option String) (l : Log),
      ∃ (names : List String) (owners' : String → Option String) (lg : Log),
        names.length = deals.length ∧
        rows_loop env contacts companies d2c d2co deals owners l =
          (Except.ok
            (List.zipWith
              (fun d n => projectFields contacts companies d2c d2co d n)
              deals names, owners'),
           l ++ lg)) ∧
    (∀ (env : Env) (fuel : Nat) (deals : List Deal) (l : Log)
        (hdr : List String) (rows : List (List String)) (l' : Log),
      build_csv_rows env fuel deals l = (Except.ok (hdr, rows), l') →
      rows.length = deals.length) := by
  constructor
  · intro env contacts companies d2c d2co deals owners l
    exact rows_loop_spec env contacts companies d2c d2co deals owners l
  · intro env fuel deals l hdr rows l' h
    rcases build_csv_rows_run env fuel deals l with
      ⟨e, l2, he⟩ | ⟨rows0, l2, hok, hlen⟩
    · rw [he] at h
      simp at h
    · rw [hok] at h
      simp only [Prod.mk.injEq, Except.ok.injEq] at h
      rw [← h.1.2]
      exact hlen

/-- Witness for C1 at a concrete run: one deal in, one row out. -/
theorem claim_C1_witness :
    build_csv_rows happyEnv 1 [c1Deal] [] =
      (Except.ok (csvHeader, [["Acme", "", "", "", "", "", "", ""]]),
       [Req.ownersPage none, Req.assoc "1" "contacts", Req.assoc "1" "companies"]) ∧
    ([["Acme", "", "", "", "", "", "", ""]] : List (List String)).length =
      ([c1Deal] : List Deal).length :=
  ⟨by decide,
   claim_C1.2 happyEnv 1 [c1Deal] [] csvHeader
     [["Acme", "", "", "", "", "", "", ""]]
     [Req.ownersPage none, Req.assoc "1" "contacts", Req.assoc "1" "companies"]
     (by decide)⟩

/-- C2.  Any transport/API failure in search pagination, association
resolution, or batch entity reading aborts the run with no output rows:
contrapositively, whenever the pipeline returns a row set, every
search/assoc/batch request it issued was answered successfully (an aborted
run returns `Except.error`, which carries no rows by construction). -/
theorem claim_C2 (env : Env) (fuel : Nat) (limit : Int)
    (hr : List String × List (List String)) (l' : Log)
    (h : runPipeline env fuel limit [] = (Except.ok hr, l')) :
    ∀ q ∈ l', isSAB q = true → envOk env q := by
  obtain ⟨r, new, h1, h2⟩ := okSafe_runPipeline env fuel limit []
  rw [h] at h1
  have hfst : Except.ok hr = r := congrArg Prod.fst h1
  have hsnd : l' = new := by
    have := congrArg Prod.snd h1
    simpa using this
  intro q hq hsab
  exact h2 hr hfst.symm q (hsnd ▸ hq) hsab

/-- Witness for C2 at a concrete successful run. -/
theorem claim_C2_witness :
    runPipeline happyEnv 1 1 [] =
      (Except.ok (csvHeader, []), [Req.search 1 none, Req.ownersPage none]) ∧
    (∀ q ∈ [Req.search 1 none, Req.ownersPage none], isSAB q = true →
      envOk happyEnv q) :=
  ⟨by decide,
   claim_C2 happyEnv 1 1 (csvHeader, [])
     [Req.search 1 none, Req.ownersPage none] (by decide)⟩

/-- C3 counterexample.  The loader does NOT drop falsy/empty identifiers:
with input `["", "7"]` the empty identifier survives into the pre-chunk
deduplicated list, and the single bulk-read request issued carries it. -/
theorem claim_C3_counterexample :
    ("" ∈ dedupKeepFirst ["", "7"]) ∧
    ((batch_read_objects happyEnv "contacts" ["", "7"]
        ["firstname", "lastname", "email"] []).2.any reqHasEmptyInput = true) := by
  constructor
  · decide
  · decide

/-- C3 as amended.  The batch entity loader short-circuits (empty result
map, no requests) only when the whole input list is empty; identifiers are
otherwise deduplicated without any falsy/empty filtering, so every input
identifier — an empty string included — survives into the pre-chunk
deduplicated list. -/
theorem claim_C3_amended (env : Env) (ot : String) (props : List String) :
    (∀ l : Log,
      batch_read_objects env ot [] props l = (Except.ok (fun _ => none), l)) ∧
    (∀ (ids : List String) (x : String), x ∈ ids → x ∈ dedupKeepFirst ids) := by
  constructor
  · intro l
    rfl
  · intro ids x hx
    exact (mem_dedupKeepFirst ids x).mpr hx

/-- Witness for the amended C3. -/
theorem claim_C3_amended_witness :
    batch_read_objects happyEnv "contacts" []
      ["firstname", "lastname", "email"] [] =
      (Except.ok (fun _ => none), []) ∧
    "" ∈ dedupKeepFirst ["", "7"] :=
  ⟨(claim_C3_amended happyEnv "contacts" ["firstname", "lastname", "email"]).1 [],
   (claim_C3_amended happyEnv "contacts" ["firstname", "lastname", "email"]).2
     ["", "7"] "" (by decide)⟩

/-- C4 counterexample.  When the fallback lookup fails, nothing is memoized:
resolving the same identifier twice issues TWO fallback requests, refuting
"at most one fallback network call" as stated. -/
theorem claim_C4_counterexample :
    ¬ (((resolveTwiceLog failEnv (some "42") (fun _ => none)).filter
        isOwnerGetReq).length ≤ 1) := by
  decide

/-- C4 as amended.  Resolving the same owner identifier twice triggers at
most one fallback network call PROVIDED the identifier is already cached or
the fallback lookup succeeds;  a failed fallback is not memoized, so only
the success path enjoys the at-most-once guarantee. -/
theorem claim_C4_amended (env : Env) (oid : String)
    (owners : String → Option String)
    (h : (owners oid).isSome = true ∨ isOkE (env.ownerGet oid) = true) :
    ((resolveTwiceLog env (some oid) owners).filter isOwnerGetReq).length ≤ 1 := by
  by_cases hoid : oid = ""
  · subst hoid
    have hf : truthyOpt (some "") = false := by simp [truthyOpt]
    simp only [resolveTwiceLog, resolve_owner_name_falsy env owners [] (some "") hf]
    simp [resolve_owner_name_falsy env owners [] (some "") hf]
  · cases hc : owners oid with
    | some n =>
        simp only [resolveTwiceLog, resolve_owner_name_hit env oid n owners [] hoid hc]
        simp [resolve_owner_name_hit env oid n owners [] hoid hc]
    | none =>
        cases hg : env.ownerGet oid with
        | ok data =>
            simp only [resolveTwiceLog,
              resolve_owner_name_miss_ok env oid owners [] data hoid hc hg]
            rw [resolve_owner_name_hit env oid _ (upd owners oid _)
              ([] ++ [Req.ownerGet oid]) hoid (upd_self owners oid _)]
            simp [isOwnerGetReq]
        | error e =>
            rcases h with h | h
            · rw [hc] at h
              simp at h
            · rw [hg] at h
              simp [isOkE] at h

/-- Witness for the amended C4: with a succeeding fallback endpoint, two
resolutions of the same identifier make at most one fallback call. -/
theorem claim_C4_amended_witness :
    ((resolveTwiceLog happyEnv (some "42") (fun _ => none)).filter
      isOwnerGetReq).length ≤ 1 :=
  claim_C4_amended happyEnv "42" (fun _ => none) (Or.inr rfl)

/-- C5.  The loader deduplicates preserving first-occurrence order (an
identifier referenced N times contributes exactly one pre-chunk entry, and
the deduplicated list is a subsequence of the input), chunks into pieces of
at most 100, issues exactly one bulk-read request per chunk, and 250 unique
identifiers produce chunks sized exactly 100, 100, 50. -/
theorem claim_C5 (ids : List String) (env : Env) (ot : String)
    (props : List String) :
    (∀ x ∈ ids, (dedupKeepFirst ids).count x = 1) ∧
    List.Sublist (dedupKeepFirst ids) ids ∧
    (∀ c ∈ chunksOf 100 (dedupKeepFirst ids), c.length ≤ 100) ∧
    ((∀ c ∈ chunksOf 100 (dedupKeepFirst ids),
        isOkE (env.batch ot c props) = true) →
      ∀ l : Log,
      (batch_read_objects env ot ids props l).2 =
        l ++ (chunksOf 100 (dedupKeepFirst ids)).map
          (fun c => Req.batch ot c props)) ∧
    (ids.Nodup → ids.length = 250 →
      (chunksOf 100 (dedupKeepFirst ids)).map List.length = [100, 100, 50]) := by
  refine ⟨fun x hx => count_dedupKeepFirst ids x hx,
    sublist_dedupKeepFirst ids,
    fun c hc => chunksOf_length_le (dedupKeepFirst ids) c hc, ?_, ?_⟩
  · intro hok l
    rw [batch_read_objects]
    by_cases he : ids.isEmpty
    · rw [if_pos he]
      have hnil : ids = [] := by
        cases ids with
        | nil => rfl
        | cons a t => simp [List.isEmpty] at he
      subst hnil
      simp [pure_run, dedupKeepFirst, chunksOf_nil]
    · rw [if_neg he]
      exact batch_chunks_loop_log env ot props
        (chunksOf 100 (dedupKeepFirst ids)) (fun _ => none) l hok
  · intro hnd hlen
    rw [dedupKeepFirst_eq_self ids hnd]
    exact chunksOf_lengths_250 ids hlen

/-- Witness for C5 with 250 distinct identifiers against an all-succeeding
batch endpoint. -/
theorem claim_C5_witness :
    (batch_read_objects happyEnv "contacts" ids250
        ["firstname", "lastname", "email"] []).2 =
      [] ++ (chunksOf 100 (dedupKeepFirst ids250)).map
        (fun c => Req.batch "contacts" c ["firstname", "lastname", "email"]) ∧
    (chunksOf 100 (dedupKeepFirst ids250)).map List.length = [100, 100, 50] :=
  ⟨(claim_C5 ids250 happyEnv "contacts" ["firstname", "lastname", "email"]).2.2.2.1
     (fun _ _ => rfl) [],
   (claim_C5 ids250 happyEnv "contacts" ["firstname", "lastname", "email"]).2.2.2.2
     ids250_nodup ids250_length⟩

/-- C6.  Unbounded mode: once a response omits (or empties) the continuation
cursor, no further search request is issued, while that response's results
are still included — for a chain of `n+1` pages the loop returns the
concatenation of all pages' results and the log contains exactly one search
request per page.  Bounded mode: exactly one search request, with no cursor
attached, whatever the outcome. -/
theorem claim_C6 :
    (∀ (env : Env) (ps : List SearchPage), SearchChain env none ps →
      ∀ fuel : Nat, ps.length ≤ fuel → ∀ l : Log,
      fetch_ytd_deals_excluding_closed_all env fuel l =
        (Except.ok ((ps.map SearchPage.results).flatten),
         l ++ chainReqs none ps) ∧
      (chainReqs none ps).length = ps.length) ∧
    (∀ (env : Env) (limit : Int) (l : Log),
      (fetch_ytd_deals_excluding_closed env limit l).2 =
        l ++ [Req.search limit none] ∧
      ∀ p : SearchPage, env.search limit none = Except.ok p →
        fetch_ytd_deals_excluding_closed env limit l =
          (Except.ok p.results, l ++ [Req.search limit none])) := by
  constructor
  · intro env ps hchain fuel hfuel l
    constructor
    · have h := fetch_all_loop_chain env ps none hchain fuel hfuel [] l
      rw [fetch_ytd_deals_excluding_closed_all, h]
      simp
    · exact chainReqs_length none ps
  · intro env limit l
    constructor
    · rw [fetch_ytd_deals_excluding_closed]
      cases hs : env.search limit none with
      | ok p =>
          have hcall : callSearch env limit none l =
              (Except.ok p, l ++ [Req.search limit none]) := by
            simp [callSearch, hs, mapErr]
          rw [bind_run_ok hcall]
          rfl
      | error e =>
          have hcall : callSearch env limit none l =
              (Except.error (Err.api e), l ++ [Req.search limit none]) := by
            simp [callSearch, hs, mapErr]
          rw [bind_run_error hcall]
    · intro p hp
      rw [fetch_ytd_deals_excluding_closed]
      have hcall : callSearch env limit none l =
          (Except.ok p, l ++ [Req.search limit none]) := by
        simp [callSearch, hp, mapErr]
      rw [bind_run_ok hcall]
      rfl

/-- The concrete two-page environment satisfies the chain predicate. -/
theorem c6ChainHolds : SearchChain c6Env none [c6Page0, c6Page1] := by
  refine SearchChain.step none c6Page0 [c6Page1] (by decide) (by decide) ?_
  exact SearchChain.last c6Page0.after c6Page1 (by decide) (by decide)

/-- Witness for C6: two pages (the second cursorless but carrying results)
are fetched with exactly two requests; bounded mode logs exactly one
request. -/
theorem claim_C6_witness :
    (fetch_ytd_deals_excluding_closed_all c6Env 2 [] =
      (Except.ok (([c6Page0, c6Page1].map SearchPage.results).flatten),
       [] ++ chainReqs none [c6Page0, c6Page1]) ∧
     (chainReqs none [c6Page0, c6Page1]).length =
       ([c6Page0, c6Page1] : List SearchPage).length) ∧
    (fetch_ytd_deals_excluding_closed c6Env 7 []).2 =
      [] ++ [Req.search 7 none] :=
  ⟨claim_C6.1 c6Env [c6Page0, c6Page1] c6ChainHolds 2 (by decide) [],
   (claim_C6.2 c6Env 7 []).1⟩

/-- C7.  Date rendering: both timestamp shapes map to the calendar date
only (in general: any string accepted by either embedded `strptime` format
renders as its calendar date), and a string matching neither format passes
through unchanged — the function is total, so no error is ever raised. -/
theorem claim_C7 :
    safe_format_date (some "2023-07-03T17:41:04.193Z") = "2023-07-03" ∧
    safe_format_date (some "2023-07-03T17:41:04Z") = "2023-07-03" ∧
    (∀ (s : String) (y m d : Nat), strptimeDate true s = some (y, m, d) →
      safe_format_date (some s) = dateIso y m d) ∧
    (∀ (s : String) (y m d : Nat), strptimeDate true s = none →
      strptimeDate false s = some (y, m, d) →
      safe_format_date (some s) = dateIso y m d) ∧
    (∀ s : String, strptimeDate true s = none → strptimeDate false s = none →
      safe_format_date (some s) = s) := by
  refine ⟨by decide, by decide, ?_, ?_, ?_⟩
  · intro s y m d h
    have hs : s ≠ "" := by
      intro he
      subst he
      exact nomatch h
    rw [safe_format_date, if_neg (by simp [truthyOpt, hs])]
    simp only [orEmpty, Option.getD_some, h]
  · intro s y m d h1 h2
    have hs : s ≠ "" := by
      intro he
      subst he
      exact nomatch h2
    rw [safe_format_date, if_neg (by simp [truthyOpt, hs])]
    simp only [orEmpty, Option.getD_some, h1, h2]
  · intro s h1 h2
    by_cases hs : s = ""
    · subst hs
      decide
    · rw [safe_format_date, if_neg (by simp [truthyOpt, hs])]
      simp only [orEmpty, Option.getD_some, h1, h2]

/-- Witness for C7's quantified parts: a parse success and a passthrough. -/
theorem claim_C7_witness :
    safe_format_date (some "2023-12-31T23:59:59Z") = dateIso 2023 12 31 ∧
    safe_format_date (some "hello") = "hello" :=
  ⟨claim_C7.2.2.2.1 "2023-12-31T23:59:59Z" 2023 12 31 (by decide) (by decide),
   claim_C7.2.2.2.2 "hello" (by decide) (by decide)⟩

/-- C8.  The display name is derived as trim(first + " " + last) if
non-empty, else the email if non-empty, else the raw identifier — and the
very same precedence function governs both the directory-listing
construction (per-item map insertion) and the fallback single-owner
lookup. -/
theorem claim_C8 :
    (∀ (owners : String → Option String) (item : OwnerItem),
      orEmpty item.id ≠ "" →
      ownerItemInsert owners item (orEmpty item.id) =
        some (specOwnerDisplayName (orEmpty item.firstName)
          (orEmpty item.lastName) (orEmpty item.email) (orEmpty item.id))) ∧
    (∀ (env : Env) (oid : String) (owners : String → Option String) (l : Log)
        (data : OwnerRec), oid ≠ "" → owners oid = none →
      env.ownerGet oid = Except.ok data →
      resolve_owner_name env (some oid) owners l =
        (Except.ok
          (specOwnerDisplayName (orEmpty data.firstName)
            (orEmpty data.lastName) (orEmpty data.email) oid,
           upd owners oid
             (specOwnerDisplayName (orEmpty data.firstName)
               (orEmpty data.lastName) (orEmpty data.email) oid)),
         l ++ [Req.ownerGet oid])) := by
  constructor
  · intro owners item hid
    simp only [ownerItemInsert]
    rw [if_pos hid]
    cases hleg : item.ownerId with
    | none => simp [upd, specOwnerDisplayName]
    | some legacy =>
        by_cases hl : legacy = ""
        · simp [hl, upd, specOwnerDisplayName]
        · by_cases heq : orEmpty item.id = legacy
          · simp [hl, heq, upd, specOwnerDisplayName]
          · simp [hl, heq, upd, specOwnerDisplayName]
  · intro env oid owners l data hne hc hg
    exact resolve_owner_name_miss_ok env oid owners l data hne hc hg

def c8ItemJane : OwnerItem :=
  { id := some "7", firstName := some "Jane", lastName := some "Doe",
    email := none, ownerId := none }

def c8ItemEmail : OwnerItem :=
  { id := some "8", firstName := none, lastName := none,
    email := some "j@x.com", ownerId := none }

def c8ItemRaw : OwnerItem :=
  { id := some "9", firstName := none, lastName := none,
    email := none, ownerId := none }

/-- Witness for C8: the three derivation examples through the listing path,
and the fallback path deriving the same name shape. -/
theorem claim_C8_witness :
    ownerItemInsert (fun _ => none) c8ItemJane "7" = some "Jane Doe" ∧
    ownerItemInsert (fun _ => none) c8ItemEmail "8" = some "j@x.com" ∧
    ownerItemInsert (fun _ => none) c8ItemRaw "9" = some "9" ∧
    resolve_owner_name happyEnv (some "42") (fun _ => none) [] =
      (Except.ok ("Jane Doe", upd (fun _ => none) "42" "Jane Doe"),
       [Req.ownerGet "42"]) := by
  refine ⟨?_, ?_, ?_, ?_⟩
  · exact (claim_C8.1 (fun _ => none) c8ItemJane (by decide)).trans (by decide)
  · exact (claim_C8.1 (fun _ => none) c8ItemEmail (by decide)).trans (by decide)
  · exact (claim_C8.1 (fun _ => none) c8ItemRaw (by decide)).trans (by decide)
  · have h := claim_C8.2 happyEnv "42" (fun _ => none) [] tOwnerRec
      (by decide) rfl rfl
    have hv : specOwnerDisplayName (orEmpty tOwnerRec.firstName)
        (orEmpty tOwnerRec.lastName) (orEmpty tOwnerRec.email) "42" =
        "Jane Doe" := by decide
    rw [hv] at h
    simpa using h

/-- C9.  A cache miss whose fallback lookup fails does not abort the run:
`resolve_owner_name` returns `Except.ok` with the raw identifier as the
display name (and leaves the cache untouched), after the single failed
`ownerGet` request. -/
theorem claim_C9 (env : Env) (oid : String) (owners : String → Option String)
    (l : Log) (e : String) (hne : oid ≠ "") (hmiss : owners oid = none)
    (hfail : env.ownerGet oid = Except.error e) :
    resolve_owner_name env (some oid) owners l =
      (Except.ok (oid, owners), l ++ [Req.ownerGet oid]) := by
  rw [resolve_owner_name, if_neg (by simp [truthyOpt, hne])]
  simp only [orEmpty, Option.getD_some, hmiss, hfail]

/-- Witness for C9 with an always-failing lookup endpoint. -/
theorem claim_C9_witness :
    resolve_owner_name failEnv (some "42") (fun _ => none) [] =
      (Except.ok ("42", fun _ => none), [] ++ [Req.ownerGet "42"]) :=
  claim_C9 failEnv "42" (fun _ => none) [] "HTTP 500" (by decide) rfl rfl

/-- C10.  An identifier absent from every bulk-read response simply has no
entry in the loader's result map (no error), and a deal whose first-contact
and first-company lookups miss still yields a row, with `customer_name`
(index 6) and `company_name` (index 7) rendered as empty strings. -/
theorem claim_C10 :
    (∀ (env : Env) (ot : String) (ids props : List String) (l : Log)
        (m : String → Option Props) (l' : Log),
      batch_read_objects env ot ids props l = (Except.ok m, l') →
      ∀ x : String,
      (∀ c ∈ chunksOf 100 (dedupKeepFirst ids), ∀ items,
        env.batch ot c props = Except.ok items →
        x ∉ items.map (fun it => strOpt it.id)) →
      m x = none) ∧
    (∀ (contacts companies : String → Option Props)
        (d2c d2co : String → Option String) (d : Deal) (owner_name : String),
      contacts (orEmpty (d2c (strOpt d.id))) = none →
      companies (orEmpty (d2co (strOpt d.id))) = none →
      (projectFields contacts companies d2c d2co d owner_name).get? 6 =
        some "" ∧
      (projectFields contacts companies d2c d2co d owner_name).get? 7 =
        some "") := by
  constructor
  · intro env ot ids props l m l' h x hx
    exact batch_read_objects_absent env ot ids props l m l' h x hx
  · intro contacts companies d2c d2co d owner_name h1 h2
    constructor
    · simp only [projectFields, h1]
      rfl
    · simp only [projectFields, h2]
      rfl

/-- The map computed by a concrete loader run against an endpoint that only
knows the identifier `"1"`. -/
def c10Map : String → Option Props :=
  match (batch_read_objects c10Env "companies" ["1", "2"]
      ["name", "domain"] []).1 with
  | Except.ok m => m
  | Except.error _ => fun _ => none

/-- Witness for C10: identifier `"2"` is absent from the response, so the
result map has no entry for it; a deal with unresolvable first contact and
company still projects to a row with blanks at `customer_name` and
`company_name`. -/
theorem claim_C10_witness :
    c10Map "2" = none ∧
    (projectFields (fun _ => none) (fun _ => none) (fun _ => none)
      (fun _ => none) c1Deal "someowner").get? 6 = some "" ∧
    (projectFields (fun _ => none) (fun _ => none) (fun _ => none)
      (fun _ => none) c1Deal "someowner").get? 7 = some "" := by
  refine ⟨?_, ?_, ?_⟩
  · refine claim_C10.1 c10Env "companies" ["1", "2"] ["name", "domain"] []
      c10Map [Req.batch "companies" ["1", "2"] ["name", "domain"]] rfl "2" ?_
    intro c hc items hitems
    have hch : chunksOf 100 (dedupKeepFirst ["1", "2"]) = [["1", "2"]] := by
      decide
    rw [hch] at hc
    rcases List.mem_singleton.mp hc with rfl
    have heq : (Except.ok
        [({ id := some "1", properties := [("name", "ACME")] } : BatchItem)] :
          Except String (List BatchItem)) =
        Except.ok items := hitems
    injection heq with heq2
    rw [← heq2]
    decide
  · exact (claim_C10.2 (fun _ => none) (fun _ => none) (fun _ => none)
      (fun _ => none) c1Deal "someowner" rfl rfl).1
  · exact (claim_C10.2 (fun _ => none) (fun _ => none) (fun _ => none)
      (fun _ => none) c1Deal "someowner" rfl rfl).2
